import Mathlib

/-
Verification of the Hypebiscus range-resolution and position-orchestration
engine (`src/lib/meteora/meteoraPositionService.ts`,
`src/lib/meteora/meteoraDlmmService.ts`, and the transaction loop of
`src/components/dashboard-components/AddLiquidityModal.tsx`).

Numeric conventions of the embedding:

* SOL amounts are embedded as `ℚ`; every constant involved (0.057, 0.015,
  0.072, balances) is an exact decimal.
* The probability model inside `generateLikelyExistingBins` only ever
  compares a random draw against rationals whose denominator divides
  200000: the base probabilities 0.95/0.8/0.6/0.4 (denominator 100 after
  scaling), the multipliers 1.2/1.0/0.8 (denominator 10), the
  conservativeness factors 0.7/0.5/0.3 (denominator 10) and the decay step
  0.05 (denominator 20), so each adjusted probability is an integer
  numerator over 100 * 10 * 200 = 200000.  We embed those probabilities as
  exact integer numerators over that fixed denominator and a
  `Math.random()` draw as an arbitrary integer numerator over the same
  denominator; `Math.random() < p` becomes numerator comparison.
  Universally quantifying over the draw function covers every outcome of
  the unseeded draws (one draw per visited bin).
* JS `Map` objects are embedded as association lists with `mapGet` /
  `mapSet` preserving the key-to-value observation of `Map.get` /
  `Map.set`.
-/

/-- Inclusive integer interval `[lo, hi]` as an ascending list; domain of the
JS `for (let binId = minBinId; binId <= maxBinId; binId++)` loops. -/
def intRange (lo hi : Int) : List Int :=
  (List.range (hi + 1 - lo).toNat).map (fun (i : Nat) => lo + (i : Int))

/-- Portfolio-specific probability multiplier of
`generateLikelyExistingBins`, times 10 (source: 1.2 / 1.0 / 0.8, default
1.0). -/
def probabilityMultiplier10 (portfolioStyle : String) : Int :=
  if portfolioStyle = "conservative" then 12
  else if portfolioStyle = "moderate" then 10
  else if portfolioStyle = "aggressive" then 8
  else 10

/-- Portfolio-specific conservativeness factor of
`generateLikelyExistingBins`, times 10 (source: 0.7 / 0.5 / 0.3, default
0.5). -/
def conservativeness10 (portfolioStyle : String) : Int :=
  if portfolioStyle = "conservative" then 7
  else if portfolioStyle = "moderate" then 5
  else if portfolioStyle = "aggressive" then 3
  else 5

/-- Distance-based base probability of `generateLikelyExistingBins`, times
100 (source: 0.95 / 0.8 / 0.6 / 0.4). -/
def baseProbability100 (distanceFromActive : Nat) : Int :=
  if distanceFromActive ≤ 2 then 95
  else if distanceFromActive ≤ 5 then 80
  else if distanceFromActive ≤ 10 then 60
  else 40

/-- Numerator over 200000 of the adjusted inclusion probability
`Math.min(base * multiplier * (1 - distance * conservativeness * 0.05),
0.95)`: `base100/100 * m10/10 * (200 - d*c10)/200` with cap
`0.95 = 190000/200000`. -/
def adjustedProbabilityScaled (m10 c10 : Int) (distanceFromActive : Nat) : Int :=
  min (baseProbability100 distanceFromActive * m10 *
        (200 - (distanceFromActive : Int) * c10)) 190000

/-- Inclusion test of the bin loop of `generateLikelyExistingBins`:
`Math.random() < adjustedProbability || distanceFromActive <= 3`, with the
draw given as a numerator over 200000. -/
def binIncluded (activeBinId : Int) (m10 c10 : Int) (draw : Int → Int)
    (binId : Int) : Bool :=
  let distanceFromActive : Nat := (binId - activeBinId).natAbs
  decide (draw binId < adjustedProbabilityScaled m10 c10 distanceFromActive)
    || decide (distanceFromActive ≤ 3)

/-- The first phase of `generateLikelyExistingBins`: the loop over
`[minBinId, maxBinId]` pushing each bin that passes `binIncluded` (pushes in
ascending loop order, hence a filter of the ascending range). -/
def likelyBinsBase (minBinId maxBinId activeBinId : Int) (portfolioStyle : String)
    (draw : Int → Int) : List Int :=
  (intRange minBinId maxBinId).filter
    (binIncluded activeBinId (probabilityMultiplier10 portfolioStyle)
      (conservativeness10 portfolioStyle) draw)

/-- Second phase of `generateLikelyExistingBins`: `if (activeBinId >= minBinId
&& activeBinId <= maxBinId && !likelyBins.includes(activeBinId))` push the
active bin and re-sort ascending. -/
def likelyBinsWithActive (minBinId maxBinId activeBinId : Int)
    (portfolioStyle : String) (draw : Int → Int) : List Int :=
  let likelyBins := likelyBinsBase minBinId maxBinId activeBinId portfolioStyle draw
  if activeBinId ≥ minBinId ∧ activeBinId ≤ maxBinId ∧ activeBinId ∉ likelyBins then
    List.insertionSort (· ≤ ·) (likelyBins ++ [activeBinId])
  else likelyBins

/-- Portfolio-specific minimum bin requirement of
`generateLikelyExistingBins` (source: 6 / 4 / 3, default 4). -/
def minRequiredBins (portfolioStyle : String) : Nat :=
  if portfolioStyle = "conservative" then 6
  else if portfolioStyle = "moderate" then 4
  else if portfolioStyle = "aggressive" then 3
  else 4

/-- Expansion loop of `generateLikelyExistingBins`: `for (let i = -expansion;
i <= expansion; i++)` push `activeBinId + i` when it is in range and not yet
present (the membership check sees earlier pushes, hence the fold). -/
def expandBins (minBinId maxBinId activeBinId : Int) (expansion : Nat)
    (likelyBins : List Int) : List Int :=
  (intRange (activeBinId - (expansion : Int)) (activeBinId + (expansion : Int))).foldl
    (fun acc binId =>
      if binId ≥ minBinId ∧ binId ≤ maxBinId ∧ binId ∉ acc then acc ++ [binId]
      else acc)
    likelyBins

/-- `generateLikelyExistingBins(minBinId, maxBinId, activeBinId,
portfolioStyle)` of `meteoraPositionService.ts`, with the random draws given
by `draw`.  `Math.ceil((minRequiredBins - likelyBins.length) / 2)` for a
positive numerator is `(minRequiredBins - length + 1) / 2`. -/
def generateLikelyExistingBins (minBinId maxBinId activeBinId : Int)
    (portfolioStyle : String) (draw : Int → Int) : List Int :=
  let likelyBins := likelyBinsWithActive minBinId maxBinId activeBinId portfolioStyle draw
  if likelyBins.length < minRequiredBins portfolioStyle then
    List.insertionSort (· ≤ ·)
      (expandBins minBinId maxBinId activeBinId
        ((minRequiredBins portfolioStyle - likelyBins.length + 1) / 2) likelyBins)
  else likelyBins

/-- The `ExistingBinRange` record of `meteoraPositionService.ts`. -/
structure ExistingBinRange where
  minBinId : Int
  maxBinId : Int
  existingBins : List Int
  liquidityDepth : Nat
  isPopular : Bool
  description : String
deriving DecidableEq, Repr

/-- One width/offset pattern of `createSmartBinRanges`; `popularity10` is the
source's popularity times 10 (0.9 / 0.8 / 0.7). -/
structure RangePattern where
  width : Int
  offset : Int
  name : String
  popularity10 : Int
deriving DecidableEq, Repr

/-- The `rangePatterns` table of `createSmartBinRanges` selected by the
(lower-cased) portfolio style. -/
def rangePatterns (portfolioStyle : String) : List RangePattern :=
  if portfolioStyle = "conservative" then
    [⟨69, 0, "Conservative Max Range", 9⟩,
     ⟨68, 0, "Conservative Wide Range", 8⟩,
     ⟨67, 0, "Conservative Standard Range", 7⟩]
  else if portfolioStyle = "moderate" then
    [⟨66, 0, "Moderate Wide Range", 9⟩,
     ⟨65, 0, "Moderate Standard Range", 8⟩,
     ⟨64, 0, "Moderate Tight Range", 7⟩]
  else if portfolioStyle = "aggressive" then
    [⟨63, 0, "Aggressive Wide Range", 9⟩,
     ⟨62, 0, "Aggressive Standard Range", 8⟩,
     ⟨60, 0, "Aggressive Tight Range", 7⟩]
  else
    [⟨65, 0, "Default Range", 8⟩]

/-- Body of the pattern loop of `createSmartBinRanges`: skip patterns wider
than `maxRangeWidth`, build the window `centerBin ± floor(width/2)`,
generate the likely bins and keep the range only when at least 3 bins
resulted (`isPopular` is `popularity > 0.6`). -/
def mkSmartRange (activeBinId maxRangeWidth : Int) (portfolioStyle : String)
    (draw : Int → Int) (pattern : RangePattern) : Option ExistingBinRange :=
  if pattern.width > maxRangeWidth then none
  else
    let centerBin := activeBinId + pattern.offset
    let minBinId := centerBin - pattern.width / 2
    let maxBinId := centerBin + pattern.width / 2
    let existingBins :=
      generateLikelyExistingBins minBinId maxBinId activeBinId portfolioStyle draw
    if 3 ≤ existingBins.length then
      some { minBinId := minBinId
             maxBinId := maxBinId
             existingBins := existingBins
             liquidityDepth := existingBins.length
             isPopular := decide (6 < pattern.popularity10)
             description := pattern.name ++ " (" ++ toString existingBins.length
               ++ " estimated bins)" }
    else none

/-- Order realised by the final `ranges.sort` comparator of
`createSmartBinRanges`: popular ranges first, ties broken by larger bin
count (`compare(a,b) <= 0`). -/
def rangeLE (a b : ExistingBinRange) : Prop :=
  (a.isPopular = true ∧ b.isPopular = false) ∨
    (a.isPopular = b.isPopular ∧ b.existingBins.length ≤ a.existingBins.length)

instance : DecidableRel rangeLE := fun a b => by
  unfold rangeLE; infer_instance

instance : IsTotal ExistingBinRange rangeLE := by
  constructor
  intro a b
  unfold rangeLE
  cases ha : a.isPopular <;> cases hb : b.isPopular <;> simp <;> omega

instance : IsTrans ExistingBinRange rangeLE := by
  constructor
  intro a b c hab hbc
  unfold rangeLE at hab hbc ⊢
  cases ha : a.isPopular <;> cases hb : b.isPopular <;> cases hc : c.isPopular <;>
    simp_all <;> omega

/-- `createSmartBinRanges(activeBinId, maxRangeWidth, portfolioStyle)` of
`meteoraPositionService.ts` with the random draws of the pattern at index
`i` given by `draw i`; the conditional pushes of the pattern loop are the
`filterMap`, and the final comparator sort is an insertion sort by
`rangeLE`. -/
def createSmartBinRanges (activeBinId maxRangeWidth : Int)
    (portfolioStyle : String) (draw : Nat → Int → Int) : List ExistingBinRange :=
  List.insertionSort rangeLE
    (((rangePatterns portfolioStyle).enum).filterMap
      (fun p => mkSmartRange activeBinId maxRangeWidth portfolioStyle (draw p.1) p.2))

/-- The BinRange invariant of the specification, for a floor taken from the
risk profile and the active bin of the resolution: ascending duplicate-free
bins, all within `[minBinId, maxBinId]`, at least `floor` of them, and the
active bin present whenever it lies in the window. -/
def binRangeInvariant (floor : Nat) (activeBinId : Int) (r : ExistingBinRange) : Prop :=
  r.existingBins.Pairwise (· < ·) ∧
  (∀ b ∈ r.existingBins, r.minBinId ≤ b ∧ b ≤ r.maxBinId) ∧
  floor ≤ r.existingBins.length ∧
  (r.minBinId ≤ activeBinId ∧ activeBinId ≤ r.maxBinId → activeBinId ∈ r.existingBins)

/-- The per-profile minimum-bin floor named by the specification: 3 for
aggressive, 4 for moderate, 6 for conservative. -/
def profileFloor (portfolioStyle : String) : Nat :=
  if portfolioStyle = "conservative" then 6
  else if portfolioStyle = "moderate" then 4
  else if portfolioStyle = "aggressive" then 3
  else 4

/-- Membership in `intRange` is the interval condition. -/
theorem mem_intRange {lo hi b : Int} : b ∈ intRange lo hi ↔ lo ≤ b ∧ b ≤ hi := by
  unfold intRange
  rw [List.mem_map]
  constructor
  · rintro ⟨i, hmem, rfl⟩
    rw [List.mem_range] at hmem
    omega
  · rintro ⟨h1, h2⟩
    refine ⟨(b - lo).toNat, ?_, ?_⟩
    · rw [List.mem_range]
      omega
    · omega

/-- `intRange` is strictly ascending. -/
theorem pairwise_intRange (lo hi : Int) : (intRange lo hi).Pairwise (· < ·) := by
  unfold intRange
  exact List.Pairwise.map _ (fun a b h => by omega) (List.pairwise_lt_range _)

/-- Length of `intRange`. -/
theorem length_intRange (lo hi : Int) : (intRange lo hi).length = (hi + 1 - lo).toNat := by
  unfold intRange
  rw [List.length_map, List.length_range]

/-- Bins within distance 3 of the active bin pass `binIncluded` whatever the
draw (the deterministic disjunct of the inclusion test). -/
theorem binIncluded_of_near {activeBinId m10 c10 : Int} {draw : Int → Int} {binId : Int}
    (h : (binId - activeBinId).natAbs ≤ 3) :
    binIncluded activeBinId m10 c10 draw binId = true := by
  simp [binIncluded, h]

/-- A sorted duplicate-free integer list is strictly ascending. -/
theorem pairwise_lt_of_sorted_nodup {l : List Int} (hs : l.Sorted (· ≤ ·))
    (hn : l.Nodup) : l.Pairwise (· < ·) :=
  (List.Pairwise.and hs hn).imp (fun h => lt_of_le_of_ne h.1 h.2)

/-- The first phase of the bin generator is strictly ascending. -/
theorem likelyBinsBase_pairwise (mn mx a : Int) (s : String) (draw : Int → Int) :
    (likelyBinsBase mn mx a s draw).Pairwise (· < ·) :=
  List.Pairwise.sublist (List.filter_sublist _) (pairwise_intRange mn mx)

/-- The first phase of the bin generator is duplicate-free. -/
theorem likelyBinsBase_nodup (mn mx a : Int) (s : String) (draw : Int → Int) :
    (likelyBinsBase mn mx a s draw).Nodup :=
  (likelyBinsBase_pairwise mn mx a s draw).imp ne_of_lt

/-- The first phase of the bin generator stays within the window. -/
theorem likelyBinsBase_bounds (mn mx a : Int) (s : String) (draw : Int → Int) :
    ∀ b ∈ likelyBinsBase mn mx a s draw, mn ≤ b ∧ b ≤ mx := by
  intro b hb
  exact mem_intRange.mp (List.mem_filter.mp hb).1

/-- Bins within distance 3 of the active bin and inside the window are in the
first phase's output. -/
theorem mem_likelyBinsBase_of_near {mn mx a : Int} {s : String} {draw : Int → Int}
    {b : Int} (hnear : (b - a).natAbs ≤ 3) (h1 : mn ≤ b) (h2 : b ≤ mx) :
    b ∈ likelyBinsBase mn mx a s draw :=
  List.mem_filter.mpr ⟨mem_intRange.mpr ⟨h1, h2⟩, binIncluded_of_near hnear⟩

/-- Case analysis for the active-bin insertion phase. -/
theorem likelyBinsWithActive_cases (mn mx a : Int) (s : String) (draw : Int → Int) :
    likelyBinsWithActive mn mx a s draw = likelyBinsBase mn mx a s draw ∨
      (mn ≤ a ∧ a ≤ mx ∧ a ∉ likelyBinsBase mn mx a s draw ∧
        likelyBinsWithActive mn mx a s draw =
          List.insertionSort (· ≤ ·) (likelyBinsBase mn mx a s draw ++ [a])) := by
  simp only [likelyBinsWithActive]
  split
  · next h => exact Or.inr ⟨h.1, h.2.1, h.2.2, rfl⟩
  · exact Or.inl rfl

/-- The active-bin insertion phase is strictly ascending. -/
theorem likelyBinsWithActive_pairwise (mn mx a : Int) (s : String) (draw : Int → Int) :
    (likelyBinsWithActive mn mx a s draw).Pairwise (· < ·) := by
  rcases likelyBinsWithActive_cases mn mx a s draw with heq | ⟨h1, h2, hnm, heq⟩
  · rw [heq]; exact likelyBinsBase_pairwise mn mx a s draw
  · rw [heq]
    have hnodup : (likelyBinsBase mn mx a s draw ++ [a]).Nodup := by
      simp [List.nodup_append, likelyBinsBase_nodup mn mx a s draw, hnm]
    exact pairwise_lt_of_sorted_nodup (List.sorted_insertionSort _ _)
      (((List.perm_insertionSort _ _).nodup_iff).mpr hnodup)

/-- The active-bin insertion phase stays within the window. -/
theorem likelyBinsWithActive_bounds (mn mx a : Int) (s : String) (draw : Int → Int) :
    ∀ b ∈ likelyBinsWithActive mn mx a s draw, mn ≤ b ∧ b ≤ mx := by
  rcases likelyBinsWithActive_cases mn mx a s draw with heq | ⟨h1, h2, hnm, heq⟩
  · rw [heq]; exact likelyBinsBase_bounds mn mx a s draw
  · rw [heq]
    intro b hb
    rcases List.mem_append.mp ((List.perm_insertionSort _ _).mem_iff.mp hb) with hb' | hb'
    · exact likelyBinsBase_bounds mn mx a s draw b hb'
    · rcases List.mem_singleton.mp hb' with rfl
      exact ⟨h1, h2⟩

/-- The first phase's bins survive the active-bin insertion phase. -/
theorem likelyBinsBase_subset_withActive (mn mx a : Int) (s : String) (draw : Int → Int) :
    likelyBinsBase mn mx a s draw ⊆ likelyBinsWithActive mn mx a s draw := by
  rcases likelyBinsWithActive_cases mn mx a s draw with heq | ⟨h1, h2, hnm, heq⟩
  · rw [heq]
    exact List.Subset.refl _
  · rw [heq]
    intro b hb
    exact (List.perm_insertionSort _ _).mem_iff.mpr
      (List.mem_append.mpr (Or.inl hb))

/-- The expansion fold of `generateLikelyExistingBins` only appends. -/
theorem foldl_push_superset (mn mx : Int) (steps : List Int) :
    ∀ l : List Int,
      l ⊆ steps.foldl
        (fun acc binId =>
          if binId ≥ mn ∧ binId ≤ mx ∧ binId ∉ acc then acc ++ [binId] else acc) l := by
  induction steps with
  | nil => exact fun l => List.Subset.refl _
  | cons x xs ih =>
    intro l
    rw [List.foldl_cons]
    refine List.Subset.trans ?_ (ih _)
    split
    · exact List.subset_append_left _ _
    · exact List.Subset.refl _

/-- The expansion fold of `generateLikelyExistingBins` preserves freedom from
duplicates and the window bounds. -/
theorem foldl_push_nodup_bounds (mn mx : Int) (steps : List Int) :
    ∀ l : List Int, l.Nodup → (∀ b ∈ l, mn ≤ b ∧ b ≤ mx) →
      (steps.foldl
        (fun acc binId =>
          if binId ≥ mn ∧ binId ≤ mx ∧ binId ∉ acc then acc ++ [binId] else acc) l).Nodup ∧
      ∀ b ∈ steps.foldl
        (fun acc binId =>
          if binId ≥ mn ∧ binId ≤ mx ∧ binId ∉ acc then acc ++ [binId] else acc) l,
        mn ≤ b ∧ b ≤ mx := by
  induction steps with
  | nil => exact fun l hn hb => ⟨hn, hb⟩
  | cons x xs ih =>
    intro l hn hb
    rw [List.foldl_cons]
    split
    · next hc =>
      apply ih
      · simp [List.nodup_append, hn, hc.2.2]
      · intro b hbm
        rcases List.mem_append.mp hbm with h | h
        · exact hb b h
        · rcases List.mem_singleton.mp h with rfl
          exact ⟨hc.1, hc.2.1⟩
    · exact ih l hn hb

/-- `expandBins` only appends. -/
theorem subset_expandBins (mn mx a : Int) (e : Nat) (l : List Int) :
    l ⊆ expandBins mn mx a e l :=
  foldl_push_superset mn mx _ l

/-- `expandBins` preserves freedom from duplicates and the window bounds. -/
theorem expandBins_nodup_bounds (mn mx a : Int) (e : Nat) (l : List Int)
    (hn : l.Nodup) (hb : ∀ b ∈ l, mn ≤ b ∧ b ≤ mx) :
    (expandBins mn mx a e l).Nodup ∧ ∀ b ∈ expandBins mn mx a e l, mn ≤ b ∧ b ≤ mx :=
  foldl_push_nodup_bounds mn mx _ l hn hb

/-- The generated bin list is strictly ascending (hence duplicate-free). -/
theorem generateLikely_pairwise (mn mx a : Int) (s : String) (draw : Int → Int) :
    (generateLikelyExistingBins mn mx a s draw).Pairwise (· < ·) := by
  simp only [generateLikelyExistingBins]
  split
  · have hex := expandBins_nodup_bounds mn mx a
      ((minRequiredBins s - (likelyBinsWithActive mn mx a s draw).length + 1) / 2)
      (likelyBinsWithActive mn mx a s draw)
      ((likelyBinsWithActive_pairwise mn mx a s draw).imp ne_of_lt)
      (likelyBinsWithActive_bounds mn mx a s draw)
    exact pairwise_lt_of_sorted_nodup (List.sorted_insertionSort _ _)
      (((List.perm_insertionSort _ _).nodup_iff).mpr hex.1)
  · exact likelyBinsWithActive_pairwise mn mx a s draw

/-- The generated bin list stays within the window. -/
theorem generateLikely_bounds (mn mx a : Int) (s : String) (draw : Int → Int) :
    ∀ b ∈ generateLikelyExistingBins mn mx a s draw, mn ≤ b ∧ b ≤ mx := by
  simp only [generateLikelyExistingBins]
  split
  · intro b hb
    exact (expandBins_nodup_bounds mn mx a _ _
        ((likelyBinsWithActive_pairwise mn mx a s draw).imp ne_of_lt)
        (likelyBinsWithActive_bounds mn mx a s draw)).2 b
      ((List.perm_insertionSort _ _).mem_iff.mp hb)
  · exact likelyBinsWithActive_bounds mn mx a s draw

/-- Bins within distance 3 of the active bin and inside the window always
appear in the generated list, whatever the draws. -/
theorem mem_generateLikely_of_near {mn mx a : Int} {s : String} {draw : Int → Int}
    {b : Int} (hnear : (b - a).natAbs ≤ 3) (h1 : mn ≤ b) (h2 : b ≤ mx) :
    b ∈ generateLikelyExistingBins mn mx a s draw := by
  have hwa : b ∈ likelyBinsWithActive mn mx a s draw :=
    likelyBinsBase_subset_withActive mn mx a s draw
      (mem_likelyBinsBase_of_near hnear h1 h2)
  simp only [generateLikelyExistingBins]
  split
  · exact (List.perm_insertionSort _ _).mem_iff.mpr (subset_expandBins mn mx a _ _ hwa)
  · exact hwa

/-- When the window contains the seven bins around the active bin, the
generated list has at least seven bins. -/
theorem length_generateLikely_of_window (mn mx a : Int) (s : String) (draw : Int → Int)
    (h1 : mn ≤ a - 3) (h2 : a + 3 ≤ mx) :
    7 ≤ (generateLikelyExistingBins mn mx a s draw).length := by
  have hsub : intRange (a - 3) (a + 3) ⊆ generateLikelyExistingBins mn mx a s draw := by
    intro b hb
    have hb' := mem_intRange.mp hb
    exact mem_generateLikely_of_near (by omega) (by omega) (by omega)
  have hnd : (intRange (a - 3) (a + 3)).Nodup := (pairwise_intRange _ _).imp ne_of_lt
  have hlen : (intRange (a - 3) (a + 3)).length = 7 := by
    rw [length_intRange]; omega
  calc (7 : Nat) = (intRange (a - 3) (a + 3)).length := hlen.symm
    _ ≤ _ := (hnd.subperm hsub).length_le

/-- Every pattern of the three named risk profiles is centred on the active
bin and at least 60 bins wide. -/
theorem rangePatterns_shape (s : String)
    (hs : s = "conservative" ∨ s = "moderate" ∨ s = "aggressive") :
    ∀ pat ∈ rangePatterns s, pat.offset = 0 ∧ 30 ≤ pat.width / 2 := by
  rcases hs with rfl | rfl | rfl <;> decide

/-- A surviving pattern with zero offset and a half-width of at least 30
yields a range window `activeBinId ± width/2` whose bins satisfy the
BinRange invariant with room to spare (floor 7). -/
theorem mkSmartRange_invariant (activeBinId maxRangeWidth : Int)
    (portfolioStyle : String) (draw : Int → Int) (pattern : RangePattern)
    (r : ExistingBinRange)
    (hmk : mkSmartRange activeBinId maxRangeWidth portfolioStyle draw pattern = some r)
    (hoff : pattern.offset = 0) (hwide : 30 ≤ pattern.width / 2) :
    binRangeInvariant 7 activeBinId r ∧
      r.minBinId = activeBinId - pattern.width / 2 ∧
      r.maxBinId = activeBinId + pattern.width / 2 := by
  simp only [mkSmartRange] at hmk
  split at hmk
  · exact absurd hmk (by simp)
  · split at hmk
    · next hlen =>
      injection hmk with hmk
      subst hmk
      rw [hoff]
      refine ⟨⟨generateLikely_pairwise _ _ _ _ _,
        generateLikely_bounds _ _ _ _ _, ?_, ?_⟩, ?_, ?_⟩
      · exact length_generateLikely_of_window _ _ _ _ _ (by omega) (by omega)
      · intro hin
        exact mem_generateLikely_of_near (by omega) (by omega) (by omega)
      · simp
      · simp
    · exact absurd hmk (by simp)

/-- C1.  Every `ExistingBinRange` produced by the range resolver
(`createSmartBinRanges`, the generation step of `findExistingBinRanges`)
for the three risk profiles satisfies the BinRange invariant for the
resolution's active bin, whatever the pool, `maxRangeWidth` and the
outcomes of the random draws: the bins are strictly ascending (hence
duplicate-free), all within `[minBinId, maxBinId]`, at least
`profileFloor` (3 aggressive / 4 moderate / 6 conservative) of them, and
the active bin appears whenever it lies inside the window. -/
theorem createSmartBinRanges_satisfies_invariant (activeBinId maxRangeWidth : Int)
    (portfolioStyle : String) (draw : Nat → Int → Int)
    (hstyle : portfolioStyle = "conservative" ∨ portfolioStyle = "moderate" ∨
      portfolioStyle = "aggressive") :
    ∀ r ∈ createSmartBinRanges activeBinId maxRangeWidth portfolioStyle draw,
      binRangeInvariant (profileFloor portfolioStyle) activeBinId r := by
  intro r hr
  rw [createSmartBinRanges] at hr
  have hr' := (List.perm_insertionSort _ _).mem_iff.mp hr
  rw [List.mem_filterMap] at hr'
  obtain ⟨⟨i, pat⟩, hmem, hmk⟩ := hr'
  have hpat : pat ∈ rangePatterns portfolioStyle := by
    have h := List.mem_map_of_mem Prod.snd hmem
    rwa [List.enum_map_snd] at h
  obtain ⟨hoff, hwide⟩ := rangePatterns_shape portfolioStyle hstyle pat hpat
  obtain ⟨hinv, -, -⟩ :=
    mkSmartRange_invariant activeBinId maxRangeWidth portfolioStyle (draw i) pat r hmk
      hoff hwide
  obtain ⟨h1, h2, h3, h4⟩ := hinv
  refine ⟨h1, h2, ?_, h4⟩
  have hfl : profileFloor portfolioStyle ≤ 7 := by
    rcases hstyle with rfl | rfl | rfl <;> decide
  omega

/-- Concrete resolver output used to instantiate the resolver theorems: the
range the conservative 69-bin pattern produces around active bin 1000 when
every draw numerator is 200000 (so only the deterministic distance-3 core
is included). -/
def conservativeWitnessRange : ExistingBinRange :=
  ⟨966, 1034, [997, 998, 999, 1000, 1001, 1002, 1003], 7, true,
    "Conservative Max Range (7 estimated bins)"⟩

set_option maxRecDepth 4000 in
/-- Witness for C1: the invariant theorem applied to a concrete resolution. -/
theorem createSmartBinRanges_invariant_witness :
    binRangeInvariant (profileFloor "conservative") 1000 conservativeWitnessRange :=
  createSmartBinRanges_satisfies_invariant 1000 69 "conservative" (fun _ _ => 200000)
    (Or.inl rfl) conservativeWitnessRange (by decide)

/-- The conservative pattern table: all centred, widths 69 / 68 / 67. -/
theorem conservative_pattern_widths :
    ∀ pat ∈ rangePatterns "conservative",
      pat.offset = 0 ∧ (pat.width = 69 ∨ pat.width = 68 ∨ pat.width = 67) := by
  decide

/-- C7.  With risk profile conservative and `maxWidth = 69`, every range the
resolver returns spans 67, 68 or 69 bins (`maxBinId - minBinId + 1`), and
the returned sequence is sorted by the comparator order `rangeLE`:
`isPopular = true` entries before `isPopular = false` entries, ties broken
by larger `existingBins.length`. -/
theorem conservative_maxWidth69_widths_and_order (activeBinId : Int)
    (draw : Nat → Int → Int) :
    (∀ r ∈ createSmartBinRanges activeBinId 69 "conservative" draw,
        r.maxBinId - r.minBinId + 1 = 67 ∨ r.maxBinId - r.minBinId + 1 = 68 ∨
          r.maxBinId - r.minBinId + 1 = 69) ∧
      List.Pairwise rangeLE (createSmartBinRanges activeBinId 69 "conservative" draw) := by
  constructor
  · intro r hr
    rw [createSmartBinRanges] at hr
    have hr' := (List.perm_insertionSort _ _).mem_iff.mp hr
    rw [List.mem_filterMap] at hr'
    obtain ⟨⟨i, pat⟩, hmem, hmk⟩ := hr'
    have hpat : pat ∈ rangePatterns "conservative" := by
      have h := List.mem_map_of_mem Prod.snd hmem
      rwa [List.enum_map_snd] at h
    obtain ⟨hoff, hwidth⟩ := conservative_pattern_widths pat hpat
    obtain ⟨-, hmin, hmax⟩ :=
      mkSmartRange_invariant activeBinId 69 "conservative" (draw i) pat r hmk hoff
        (by rcases hwidth with h | h | h <;> rw [h] <;> decide)
    have h34 : (69 : Int) / 2 = 34 := by decide
    have h34' : (68 : Int) / 2 = 34 := by decide
    have h33 : (67 : Int) / 2 = 33 := by decide
    rcases hwidth with h | h | h <;> rw [hmin, hmax, h] <;>
      first
      | (rw [h34]; omega)
      | (rw [h34']; omega)
      | (rw [h33]; omega)
  · rw [createSmartBinRanges]
    exact List.sorted_insertionSort _ _

set_option maxRecDepth 4000 in
/-- Witness for C7: the width conclusion at a concrete returned range. -/
theorem conservative_maxWidth69_widths_witness :
    conservativeWitnessRange.maxBinId - conservativeWitnessRange.minBinId + 1 = 67 ∨
      conservativeWitnessRange.maxBinId - conservativeWitnessRange.minBinId + 1 = 68 ∨
      conservativeWitnessRange.maxBinId - conservativeWitnessRange.minBinId + 1 = 69 :=
  (conservative_maxWidth69_widths_and_order 1000 (fun _ _ => 200000)).1
    conservativeWitnessRange (by decide)

/-- Observation of a JS `Map.get` on an association list. -/
def mapGet {α : Type} (m : List (String × α)) (k : String) : Option α :=
  (m.find? (fun p => p.1 == k)).map (fun p => p.2)

/-- JS `Map.set`: replace the value of an existing key in place, append a new
key at the end. -/
def mapSet {α : Type} (m : List (String × α)) (k : String) (v : α) :
    List (String × α) :=
  match m with
  | [] => [(k, v)]
  | (k', v') :: rest => if k' == k then (k, v) :: rest else (k', v') :: mapSet rest k v

/-- Reading the key just written returns the value written. -/
theorem mapGet_mapSet_same {α : Type} (m : List (String × α)) (k : String) (v : α) :
    mapGet (mapSet m k v) k = some v := by
  induction m with
  | nil => simp [mapGet, mapSet]
  | cons a rest ih =>
    obtain ⟨k', v'⟩ := a
    by_cases h : k' = k
    · subst h
      simp [mapGet, mapSet]
    · simp [mapGet, mapSet, h]
      simpa [mapGet] using ih

/-- Writing one key leaves every other key unchanged. -/
theorem mapGet_mapSet_ne {α : Type} (m : List (String × α)) (k k' : String) (v : α)
    (h : k' ≠ k) : mapGet (mapSet m k v) k' = mapGet m k' := by
  induction m with
  | nil =>
    have hb : (k == k') = false := beq_eq_false_iff_ne.mpr (fun hh => h hh.symm)
    simp [mapGet, mapSet, hb]
  | cons a rest ih =>
    obtain ⟨k₁, v₁⟩ := a
    by_cases h1 : k₁ = k
    · subst h1
      have hb : (k₁ == k') = false := beq_eq_false_iff_ne.mpr (fun hh => h hh.symm)
      simp [mapGet, mapSet, hb]
    · by_cases h2 : k₁ = k'
      · subst h2
        simp [mapGet, mapSet, h1]
      · have hb1 : (k₁ == k) = false := beq_eq_false_iff_ne.mpr h1
        have hb2 : (k₁ == k') = false := beq_eq_false_iff_ne.mpr h2
        simp only [mapSet, hb1, Bool.false_eq_true, if_false]
        simp only [mapGet, List.find?, hb2] at ih ⊢
        exact ih

/-- One entry of the module-level `binRangeCache` of
`meteoraPositionService.ts`. -/
structure BinRangeCacheEntry where
  ranges : List ExistingBinRange
  timestamp : Int
  activeBinId : Int
deriving DecidableEq, Repr

/-- The module-level `binRangeCache` map. -/
abbrev BinRangeCache := List (String × BinRangeCacheEntry)

/-- `CACHE_DURATION` of `meteoraPositionService.ts` (milliseconds). -/
def CACHE_DURATION : Int := 120000

/-- Cache key of `findExistingBinRanges`:
`poolAddress-portfolioStyle-connectionKey`. -/
def binRangeCacheKey (poolAddress portfolioStyle connectionKey : String) : String :=
  poolAddress ++ "-" ++ portfolioStyle ++ "-" ++ connectionKey

/-- `findExistingBinRanges` of `meteoraPositionService.ts` as a state
function over the module-level cache.  `now` is `Date.now()`;
`connectionKey` is `'custom'` or `'default'` according to the connection
argument; `activeBinRead` is the combined outcome of `initializePool` plus
`getActiveBin` (the body is wrapped in one `try` whose `catch` throws the
one generic error).  The default of `maxRangeWidth` in the source is 20. -/
def findExistingBinRangesModel (cache : BinRangeCache) (now : Int)
    (poolAddress : String) (maxRangeWidth : Int) (portfolioStyle : String)
    (connectionKey : String) (activeBinRead : Except String Int)
    (draw : Nat → Int → Int) :
    Except String (List ExistingBinRange × BinRangeCache) :=
  let cacheKey := binRangeCacheKey poolAddress portfolioStyle connectionKey
  match mapGet cache cacheKey with
  | some cached =>
    if now - cached.timestamp < CACHE_DURATION then
      Except.ok (cached.ranges, cache)
    else
      match activeBinRead with
      | Except.error _ =>
        Except.error "Unable to find existing bin ranges for safe liquidity provision"
      | Except.ok activeBinId =>
        let existingRanges :=
          createSmartBinRanges activeBinId maxRangeWidth portfolioStyle draw
        Except.ok (existingRanges,
          mapSet cache cacheKey ⟨existingRanges, now, activeBinId⟩)
  | none =>
    match activeBinRead with
    | Except.error _ =>
      Except.error "Unable to find existing bin ranges for safe liquidity provision"
    | Except.ok activeBinId =>
      let existingRanges :=
        createSmartBinRanges activeBinId maxRangeWidth portfolioStyle draw
      Except.ok (existingRanges,
        mapSet cache cacheKey ⟨existingRanges, now, activeBinId⟩)

/-- When every pattern of the selected style is wider than `maxRangeWidth`
the resolver produces no range at all. -/
theorem createSmartBinRanges_skips_all (activeBinId maxRangeWidth : Int)
    (portfolioStyle : String) (draw : Nat → Int → Int)
    (hwide : ∀ pat ∈ rangePatterns portfolioStyle, pat.width > maxRangeWidth) :
    createSmartBinRanges activeBinId maxRangeWidth portfolioStyle draw = [] := by
  rw [createSmartBinRanges]
  have h : ((rangePatterns portfolioStyle).enum).filterMap
      (fun p => mkSmartRange activeBinId maxRangeWidth portfolioStyle (draw p.1) p.2)
      = [] := by
    rw [List.filterMap_eq_nil_iff]
    intro p hp
    have hpat : p.2 ∈ rangePatterns portfolioStyle := by
      have h2 := List.mem_map_of_mem Prod.snd hp
      rwa [List.enum_map_snd] at h2
    simp [mkSmartRange, hwide p.2 hpat]
  rw [h]
  rfl

/-- Every pattern of every style table is wider than 20 bins (the three
profiles use widths 60 through 69, the fallback uses 65). -/
theorem rangePatterns_width_gt_20 (s : String) :
    ∀ pat ∈ rangePatterns s, pat.width > 20 := by
  unfold rangePatterns
  split
  · decide
  · split
    · decide
    · split
      · decide
      · decide

/-- C10.  With the source's default `maxRangeWidth = 20` every pattern width
(60 through 69, fallback 65) exceeds the limit, so for every pool, profile,
active bin and draw outcome the resolver skips all patterns: a cache-missing
call returns the empty list, stores it in the range cache under its key with
the call's timestamp, and a second same-key call within the 120-second TTL
is served that cached empty list with the cache unchanged. -/
theorem default_maxRangeWidth_caches_empty (cache : BinRangeCache) (now now2 : Int)
    (poolAddress portfolioStyle connectionKey : String) (activeBinId : Int)
    (draw draw2 : Nat → Int → Int) (activeBinRead2 : Except String Int)
    (hmiss : mapGet cache (binRangeCacheKey poolAddress portfolioStyle connectionKey)
      = none)
    (httl : now2 - now < CACHE_DURATION) :
    findExistingBinRangesModel cache now poolAddress 20 portfolioStyle connectionKey
        (Except.ok activeBinId) draw =
      Except.ok ([], mapSet cache
        (binRangeCacheKey poolAddress portfolioStyle connectionKey)
        ⟨[], now, activeBinId⟩) ∧
    findExistingBinRangesModel
        (mapSet cache (binRangeCacheKey poolAddress portfolioStyle connectionKey)
          ⟨[], now, activeBinId⟩)
        now2 poolAddress 20 portfolioStyle connectionKey activeBinRead2 draw2 =
      Except.ok ([], mapSet cache
        (binRangeCacheKey poolAddress portfolioStyle connectionKey)
        ⟨[], now, activeBinId⟩) := by
  have hempty : createSmartBinRanges activeBinId 20 portfolioStyle draw = [] :=
    createSmartBinRanges_skips_all activeBinId 20 portfolioStyle draw
      (fun pat hp => rangePatterns_width_gt_20 portfolioStyle pat hp)
  constructor
  · simp only [findExistingBinRangesModel, hmiss, hempty]
  · simp only [findExistingBinRangesModel, mapGet_mapSet_same, httl, if_pos]

/-- Witness for C10 at a concrete pool, style and clock. -/
theorem default_maxRangeWidth_caches_empty_witness :
    findExistingBinRangesModel [] 0 "pool" 20 "conservative" "default"
        (Except.ok 1000) (fun _ _ => 0) =
      Except.ok ([], mapSet [] (binRangeCacheKey "pool" "conservative" "default")
        ⟨[], 0, 1000⟩) ∧
    findExistingBinRangesModel
        (mapSet [] (binRangeCacheKey "pool" "conservative" "default") ⟨[], 0, 1000⟩)
        100 "pool" 20 "conservative" "default" (Except.error "down") (fun _ _ => 0) =
      Except.ok ([], mapSet [] (binRangeCacheKey "pool" "conservative" "default")
        ⟨[], 0, 1000⟩) :=
  default_maxRangeWidth_caches_empty [] 0 100 "pool" "conservative" "default" 1000
    (fun _ _ => 0) (fun _ _ => 0) (Except.error "down") (by decide) (by decide)

/-- Counterexample for C2: a call in which every candidate window is
discarded (all widths exceed `maxRangeWidth = 20`) does not fail — it
returns `Except.ok` with the empty list (and caches it), contradicting the
claim that it fails with a `NoSuitableRangeError`-style error. -/
theorem findExistingBinRanges_empty_without_error :
    findExistingBinRangesModel [] 0 "pool" 20 "conservative" "default"
        (Except.ok 1000) (fun _ _ => 0) =
      Except.ok ([], [(binRangeCacheKey "pool" "conservative" "default",
        ⟨[], 0, 1000⟩)]) := by
  rfl

/-- C2 as amended: on a cache miss, a failing active-bin read makes the call
fail with the generic error, but when every candidate window is discarded
(all pattern widths exceed `maxRangeWidth`) the call succeeds with the
empty list, which it also caches. -/
theorem findExistingBinRanges_failure_modes (cache : BinRangeCache) (now : Int)
    (poolAddress portfolioStyle connectionKey e : String) (maxRangeWidth : Int)
    (activeBinId : Int) (draw : Nat → Int → Int)
    (hmiss : mapGet cache (binRangeCacheKey poolAddress portfolioStyle connectionKey)
      = none)
    (hwide : ∀ pat ∈ rangePatterns portfolioStyle, pat.width > maxRangeWidth) :
    findExistingBinRangesModel cache now poolAddress maxRangeWidth portfolioStyle
        connectionKey (Except.error e) draw =
      Except.error "Unable to find existing bin ranges for safe liquidity provision" ∧
    findExistingBinRangesModel cache now poolAddress maxRangeWidth portfolioStyle
        connectionKey (Except.ok activeBinId) draw =
      Except.ok ([], mapSet cache
        (binRangeCacheKey poolAddress portfolioStyle connectionKey)
        ⟨[], now, activeBinId⟩) := by
  have hempty : createSmartBinRanges activeBinId maxRangeWidth portfolioStyle draw = [] :=
    createSmartBinRanges_skips_all activeBinId maxRangeWidth portfolioStyle draw hwide
  constructor
  · simp only [findExistingBinRangesModel, hmiss]
  · simp only [findExistingBinRangesModel, hmiss, hempty]

/-- Witness for the amended C2 at a concrete input. -/
theorem findExistingBinRanges_failure_modes_witness :
    findExistingBinRangesModel [] 0 "pool" 20 "conservative" "default"
        (Except.error "rpc down") (fun _ _ => 0) =
      Except.error "Unable to find existing bin ranges for safe liquidity provision" ∧
    findExistingBinRangesModel [] 0 "pool" 20 "conservative" "default"
        (Except.ok 1000) (fun _ _ => 0) =
      Except.ok ([], mapSet [] (binRangeCacheKey "pool" "conservative" "default")
        ⟨[], 0, 1000⟩) :=
  findExistingBinRanges_failure_modes [] 0 "pool" "conservative" "default" "rpc down"
    20 1000 (fun _ _ => 0) (by decide) (by decide)

/-- A connected pool client: `DLMM.create(connection, pubkey)` is determined
by the endpoint of the connection used and the pool address. -/
structure PoolHandle where
  endpoint : String
  poolAddress : String
deriving DecidableEq, Repr

/-- The per-instance `poolInstances` map of `MeteoraPositionService`. -/
abbrev PoolInstanceCache := List (String × PoolHandle)

/-- Cache key of `initializePool`: `poolAddress-custom` or
`poolAddress-default` — the key records only whether a custom connection was
passed, not which endpoint that connection targets. -/
def poolCacheKey (poolAddress : String) (customConnection : Option String) : String :=
  poolAddress ++ "-" ++ (if customConnection.isSome then "custom" else "default")

/-- `initializePool` of `MeteoraPositionService`: return the cached handle
for the key when present; otherwise construct (connect) a handle against the
custom connection when given, else the instance's default connection, and
cache it under the key.  `customConnection` carries the endpoint of the
custom connection. -/
def initializePool (poolInstances : PoolInstanceCache) (defaultEndpoint : String)
    (poolAddress : String) (customConnection : Option String) :
    PoolHandle × PoolInstanceCache :=
  match mapGet poolInstances (poolCacheKey poolAddress customConnection) with
  | some pool => (pool, poolInstances)
  | none =>
    let pool : PoolHandle := ⟨customConnection.getD defaultEndpoint, poolAddress⟩
    (pool, mapSet poolInstances (poolCacheKey poolAddress customConnection) pool)

/-- Counterexample for C4: two gets for the same pool with two different
custom endpoints share one cache entry — the second get returns the handle
connected to the first endpoint, so handles are shared across distinct
endpoint identities. -/
theorem initializePool_shares_handle_across_endpoints :
    (initializePool (initializePool [] "defaultEp" "pool" (some "ep1")).2
        "defaultEp" "pool" (some "ep2")).1 = ⟨"ep1", "pool"⟩ ∧
    (initializePool (initializePool [] "defaultEp" "pool" (some "ep1")).2
        "defaultEp" "pool" (some "ep2")).2 =
      (initializePool [] "defaultEp" "pool" (some "ep1")).2 ∧
    ("ep1" : String) ≠ "ep2" := by
  refine ⟨rfl, rfl, ?_⟩
  decide

/-- C4 as amended: `initializePool` memoizes one connected handle per
(pool address, custom-versus-default flag): a repeated get for the same pool
and the same flag returns the cached handle and leaves the cache unchanged;
a first access constructs a handle connected to the requested endpoint; and
the cache key ignores which custom endpoint is used, so all custom
endpoints of one pool share a single entry. -/
theorem initializePool_cache_behavior (poolInstances : PoolInstanceCache)
    (defaultEndpoint poolAddress : String) (customConnection : Option String) :
    (initializePool
        (initializePool poolInstances defaultEndpoint poolAddress customConnection).2
        defaultEndpoint poolAddress customConnection).1 =
      (initializePool poolInstances defaultEndpoint poolAddress customConnection).1 ∧
    (initializePool
        (initializePool poolInstances defaultEndpoint poolAddress customConnection).2
        defaultEndpoint poolAddress customConnection).2 =
      (initializePool poolInstances defaultEndpoint poolAddress customConnection).2 ∧
    (mapGet poolInstances (poolCacheKey poolAddress customConnection) = none →
      (initializePool poolInstances defaultEndpoint poolAddress customConnection).1 =
        ⟨customConnection.getD defaultEndpoint, poolAddress⟩) ∧
    (∀ e1 e2 : String,
      poolCacheKey poolAddress (some e1) = poolCacheKey poolAddress (some e2)) := by
  cases hm : mapGet poolInstances (poolCacheKey poolAddress customConnection) with
  | some p =>
    refine ⟨?_, ?_, ?_, ?_⟩
    · simp [initializePool, hm]
    · simp [initializePool, hm]
    · intro h
      exact absurd h (by simp)
    · intro e1 e2
      rfl
  | none =>
    refine ⟨?_, ?_, ?_, ?_⟩
    · simp [initializePool, hm, mapGet_mapSet_same]
    · simp [initializePool, hm, mapGet_mapSet_same]
    · intro _
      simp [initializePool, hm]
    · intro e1 e2
      rfl

/-- Witness for the amended C4 at a concrete cache and endpoints. -/
theorem initializePool_cache_behavior_witness :
    (initializePool (initializePool [] "defaultEp" "pool" (some "ep1")).2
        "defaultEp" "pool" (some "ep1")).1 =
      (initializePool [] "defaultEp" "pool" (some "ep1")).1 ∧
    (initializePool [] "defaultEp" "pool" (some "ep1")).1 = ⟨"ep1", "pool"⟩ :=
  ⟨(initializePool_cache_behavior (initializePool [] "defaultEp" "pool" (some "ep1")).2
      "defaultEp" "pool" (some "ep1")).1.trans (by rfl),
    (initializePool_cache_behavior [] "defaultEp" "pool" (some "ep1")).2.2.1 (by rfl)⟩

/-- The private per-instance state of one `MeteoraPositionService`. -/
structure ServiceState where
  poolInstances : PoolInstanceCache
deriving DecidableEq, Repr

/-- Two service instances A and B together with the module-level
`binRangeCache` they share (`const binRangeCache = new Map(...)` at module
scope of `meteoraPositionService.ts`, read and written by
`findExistingBinRanges` of every instance). -/
structure TwoServiceWorld where
  binRangeCache : BinRangeCache
  svcA : ServiceState
  svcB : ServiceState
deriving DecidableEq, Repr

/-- `clearCache()` invoked on instance A: clears A's `poolInstances` and the
module-level `binRangeCache`. -/
def clearCacheA (w : TwoServiceWorld) : TwoServiceWorld :=
  { w with svcA := ⟨[]⟩, binRangeCache := [] }

/-- Counterexample for C5: a range entry that instance B cached in the
module-level `binRangeCache` is present before instance A calls
`clearCache()` and gone afterwards, so A's clear does not leave B's cached
entries unchanged. -/
theorem clearCacheA_clears_B_range_entry :
    mapGet (TwoServiceWorld.binRangeCache
        ⟨[(binRangeCacheKey "poolB" "conservative" "default",
            ⟨[conservativeWitnessRange], 5, 1000⟩)], ⟨[]⟩,
          ⟨[(poolCacheKey "poolB" none, ⟨"epB", "poolB"⟩)]⟩⟩)
      (binRangeCacheKey "poolB" "conservative" "default")
        = some ⟨[conservativeWitnessRange], 5, 1000⟩ ∧
    mapGet (TwoServiceWorld.binRangeCache (clearCacheA
        ⟨[(binRangeCacheKey "poolB" "conservative" "default",
            ⟨[conservativeWitnessRange], 5, 1000⟩)], ⟨[]⟩,
          ⟨[(poolCacheKey "poolB" none, ⟨"epB", "poolB"⟩)]⟩⟩))
      (binRangeCacheKey "poolB" "conservative" "default") = none := by
  exact ⟨rfl, rfl⟩

/-- C5 as amended: the pool handle cache is per-instance — `clearCache()` on
A empties only A's `poolInstances` and leaves B's untouched — but the range
cache is one module-level map shared by all instances, and A's
`clearCache()` empties it for B as well. -/
theorem clearCacheA_frame (w : TwoServiceWorld) (k : String) :
    (clearCacheA w).svcB = w.svcB ∧
    mapGet (clearCacheA w).svcB.poolInstances k = mapGet w.svcB.poolInstances k ∧
    mapGet (clearCacheA w).svcA.poolInstances k = none ∧
    mapGet (clearCacheA w).binRangeCache k = none :=
  ⟨rfl, rfl, rfl, rfl⟩

/-- Breakdown record of `SimplifiedCostEstimation`. -/
structure CostBreakdown where
  existingBinsUsed : Int
  noBinCreationNeeded : Bool
  estimatedComputeUnits : Int
deriving DecidableEq, Repr

/-- `SimplifiedCostEstimation` of `meteoraPositionService.ts`; SOL amounts
are exact rationals. -/
structure SimplifiedCostEstimation where
  positionRent : ℚ
  transactionFees : ℚ
  total : ℚ
  breakdown : CostBreakdown
deriving DecidableEq, Repr

/-- `getSimplifiedCostEstimation(poolAddress, existingBinsCount)` (source
default for the count is 5): a pure function of the two fixed constants
0.057 and 0.015; it performs no I/O and cannot fail — totality of this
definition mirrors that. -/
def getSimplifiedCostEstimation (poolAddress : String) (existingBinsCount : Int) :
    SimplifiedCostEstimation :=
  { positionRent := 57/1000
    transactionFees := 15/1000
    total := 57/1000 + 15/1000
    breakdown :=
      { existingBinsUsed := existingBinsCount
        noBinCreationNeeded := true
        estimatedComputeUnits := 50000 } }

/-- C9.  For every pool address and `binsUsed` count the estimator returns
`total = 0.072` (= `positionRent + transactionFees`), with the breakdown
reporting exactly the requested count; the count never changes the total. -/
theorem getSimplifiedCostEstimation_constant_total (poolAddress : String)
    (existingBinsCount : Int) :
    (getSimplifiedCostEstimation poolAddress existingBinsCount).total = 72/1000 ∧
    (getSimplifiedCostEstimation poolAddress
      existingBinsCount).breakdown.existingBinsUsed = existingBinsCount := by
  constructor
  · norm_num [getSimplifiedCostEstimation]
  · rfl

/-- Result record of `validateUserBalance`; `shortfall` and `error` are
optional fields of the returned object. -/
structure BalanceValidation where
  isValid : Bool
  currentBalance : ℚ
  shortfall : Option ℚ
  error : Option String
deriving DecidableEq, Repr

/-- `validateUserBalance(userPublicKey, requiredSolAmount, estimatedCost,
customConnection?)`: `balanceRead` is the outcome of
`connection.getBalance(...) / LAMPORTS_PER_SOL`, already in SOL.  On an RPC
failure the catch returns `isValid: false` with zero balance and no
shortfall field.  The numbers interpolated into the source's message
strings are elided. -/
def validateUserBalance (balanceRead : Except String ℚ) (requiredSolAmount : ℚ)
    (estimatedCost : SimplifiedCostEstimation) : BalanceValidation :=
  match balanceRead with
  | Except.ok solBalance =>
    if solBalance < requiredSolAmount + estimatedCost.total then
      { isValid := false
        currentBalance := solBalance
        shortfall := some (requiredSolAmount + estimatedCost.total - solBalance)
        error := some "Insufficient SOL balance" }
    else
      { isValid := true
        currentBalance := solBalance
        shortfall := none
        error := none }
  | Except.error e =>
    { isValid := false
      currentBalance := 0
      shortfall := none
      error := some ("Failed to check balance: " ++ e) }

/-- Counterexample for C6: with a sufficient balance the validator reports
`isValid = true` but the `shortfall` field is absent (`none`), not the
claimed explicit 0. -/
theorem validateUserBalance_shortfall_absent_when_valid :
    (validateUserBalance (Except.ok 1) (2/100)
        (getSimplifiedCostEstimation "pool" 5)).isValid = true ∧
    (validateUserBalance (Except.ok 1) (2/100)
        (getSimplifiedCostEstimation "pool" 5)).shortfall = none ∧
    (validateUserBalance (Except.ok 1) (2/100)
        (getSimplifiedCostEstimation "pool" 5)).shortfall ≠ some 0 := by
  have h : ¬ ((1 : ℚ) < 2/100 + (57/1000 + 15/1000)) := by norm_num
  refine ⟨?_, ?_, ?_⟩ <;>
    simp [validateUserBalance, getSimplifiedCostEstimation, h]

/-- C6 as amended: for a successful balance read, `isValid` holds exactly
when `balance ≥ requiredAmount + costEstimate.total`; when the balance is
insufficient, `shortfall` is present and equals `total − balance`; when it
is sufficient, `shortfall` is absent rather than 0.  At the claim's
concrete input — balance 0.05, requiredAmount 0.02, total needed 0.092 —
the validator returns `isValid = false` with `shortfall = 0.042`. -/
theorem validateUserBalance_spec (balance requiredSolAmount : ℚ)
    (estimatedCost : SimplifiedCostEstimation) :
    ((validateUserBalance (Except.ok balance) requiredSolAmount estimatedCost).isValid
        = true ↔ requiredSolAmount + estimatedCost.total ≤ balance) ∧
    (balance < requiredSolAmount + estimatedCost.total →
      (validateUserBalance (Except.ok balance) requiredSolAmount estimatedCost).shortfall
        = some (requiredSolAmount + estimatedCost.total - balance)) ∧
    (requiredSolAmount + estimatedCost.total ≤ balance →
      (validateUserBalance (Except.ok balance) requiredSolAmount estimatedCost).shortfall
        = none) ∧
    validateUserBalance (Except.ok (5/100)) (2/100)
        (getSimplifiedCostEstimation "pool" 5)
      = ⟨false, 5/100, some (21/500), some "Insufficient SOL balance"⟩ := by
  refine ⟨?_, ?_, ?_, ?_⟩
  · by_cases h : balance < requiredSolAmount + estimatedCost.total
    · simp only [validateUserBalance, if_pos h, Bool.false_eq_true, false_iff]
      exact not_le.mpr h
    · simp only [validateUserBalance, if_neg h, true_iff]
      exact not_lt.mp h
  · intro h
    simp [validateUserBalance, h]
  · intro h
    simp [validateUserBalance, not_lt.mpr h]
  · have h : (5/100 : ℚ) < 2/100 + (57/1000 + 15/1000) := by norm_num
    simp [validateUserBalance, getSimplifiedCostEstimation, h]
    norm_num

/-- Witness for the amended C6: the shortfall equation applied at the
claim's concrete input. -/
theorem validateUserBalance_spec_witness :
    (validateUserBalance (Except.ok (5/100)) (2/100)
        (getSimplifiedCostEstimation "pool" 5)).shortfall
      = some (2/100 + (getSimplifiedCostEstimation "pool" 5).total - 5/100) :=
  (validateUserBalance_spec (5/100) (2/100) (getSimplifiedCostEstimation "pool" 5)).2.1
    (by norm_num [getSimplifiedCostEstimation])

/-- Outcome of one transaction in the Web3Auth branch of
`handleAddLiquidity`: the result of `signAndSendTransaction` (a signature,
or a thrown error) and, when signing succeeded, the `err` payload of the
awaited `confirmTransaction` value (`none` for a clean confirmation). -/
structure TxAttempt where
  signResult : Except String String
  confirmErr : Option String
deriving Repr

/-- Observable result of driving a transaction list: for how many
transactions signing was attempted, which signatures completed
(confirmed without an error payload) in order, and the error that aborted
the loop, if any. -/
structure TxRunResult where
  attempted : Nat
  confirmedSignatures : List String
  failure : Option String
deriving DecidableEq, Repr

/-- The `for (const tx of result.transaction)` loop of the Web3Auth branch
of `handleAddLiquidity`: sign and submit, await the confirmation, and throw
(aborting the loop and the whole handler) when the confirmation carries an
on-chain `err` payload. -/
def processWeb3AuthTxs : List TxAttempt → TxRunResult
  | [] => ⟨0, [], none⟩
  | t :: rest =>
    match t.signResult with
    | Except.error e => ⟨1, [], some e⟩
    | Except.ok sig =>
      match t.confirmErr with
      | some err => ⟨1, [], some ("Transaction failed: " ++ err)⟩
      | none =>
        let r := processWeb3AuthTxs rest
        ⟨r.attempted + 1, sig :: r.confirmedSignatures, r.failure⟩

/-- The traditional-wallet branch of the same loop: `sendTransaction` per
transaction, no confirmation step; a throw aborts the loop. -/
def processTraditionalTxs : List (Except String String) → TxRunResult
  | [] => ⟨0, [], none⟩
  | r :: rest =>
    match r with
    | Except.error e => ⟨1, [], some e⟩
    | Except.ok sig =>
      let rr := processTraditionalTxs rest
      ⟨rr.attempted + 1, sig :: rr.confirmedSignatures, rr.failure⟩

/-- A transaction attempt fails when signing throws or when the
confirmation reports an on-chain error payload. -/
def txFails (t : TxAttempt) : Bool :=
  match t.signResult with
  | Except.error _ => true
  | Except.ok _ => t.confirmErr.isSome

/-- C3.  Transactions are processed strictly sequentially: when the head
transaction of the sequence fails — its signing throws or its confirmation
reports an on-chain error payload — the run is identical to processing that
transaction alone, exactly one signing is attempted (no later transaction
is ever attempted), zero signatures complete, and the operation fails; the
traditional branch aborts its loop the same way. -/
theorem web3auth_sequence_stops_after_failure (t : TxAttempt)
    (rest : List TxAttempt) (hfail : txFails t = true) :
    processWeb3AuthTxs (t :: rest) = processWeb3AuthTxs [t] ∧
    (processWeb3AuthTxs (t :: rest)).attempted = 1 ∧
    (processWeb3AuthTxs (t :: rest)).confirmedSignatures = [] ∧
    (processWeb3AuthTxs (t :: rest)).failure.isSome = true ∧
    (∀ (e : String) (rest2 : List (Except String String)),
      processTraditionalTxs (Except.error e :: rest2) = ⟨1, [], some e⟩) := by
  obtain ⟨s, c⟩ := t
  cases s with
  | error e => exact ⟨rfl, rfl, rfl, rfl, fun e rest2 => rfl⟩
  | ok sig =>
    cases c with
    | none => simp [txFails] at hfail
    | some err => exact ⟨rfl, rfl, rfl, rfl, fun e rest2 => rfl⟩

/-- Witness for C3: a two-transaction `createPosition` sequence whose first
confirmation reports an on-chain error: one attempt, zero completed
signatures, failed, and the second transaction untouched. -/
theorem web3auth_sequence_stops_witness :
    processWeb3AuthTxs
        (⟨Except.ok "sig1", some "InstructionError"⟩ ::
          [⟨Except.ok "sig2", none⟩]) =
      processWeb3AuthTxs [⟨Except.ok "sig1", some "InstructionError"⟩] ∧
    (processWeb3AuthTxs
        (⟨Except.ok "sig1", some "InstructionError"⟩ ::
          [⟨Except.ok "sig2", none⟩])).attempted = 1 ∧
    (processWeb3AuthTxs
        (⟨Except.ok "sig1", some "InstructionError"⟩ ::
          [⟨Except.ok "sig2", none⟩])).confirmedSignatures = [] ∧
    (processWeb3AuthTxs
        (⟨Except.ok "sig1", some "InstructionError"⟩ ::
          [⟨Except.ok "sig2", none⟩])).failure.isSome = true ∧
    (∀ (e : String) (rest2 : List (Except String String)),
      processTraditionalTxs (Except.error e :: rest2) = ⟨1, [], some e⟩) :=
  web3auth_sequence_stops_after_failure ⟨Except.ok "sig1", some "InstructionError"⟩
    [⟨Except.ok "sig2", none⟩] (by decide)

/-- Helper recursion for `strContains`: does the pattern occur at any
suffix start. -/
def strContainsAux (pat : List Char) : List Char → Bool
  | [] => List.isPrefixOf pat []
  | c :: rest => List.isPrefixOf pat (c :: rest) || strContainsAux pat rest

/-- JS `String.prototype.includes`. -/
def strContains (s pat : String) : Bool :=
  strContainsAux pat.toList s.toList

/-- The toast surfaced by the catch block of `handleAddLiquidity`. -/
inductive ToastMessage
  | warningCancelled
  | errorInsufficientFunds
  | errorTransactionFailed (message : String)
  | errorUnexpected
deriving DecidableEq, Repr

/-- The catch block of `handleAddLiquidity` of `AddLiquidityModal.tsx`:
`errMessage` is `error.message` when the thrown value is an `Error`,
`none` otherwise; `signAndSendError` is the Web3Auth signing hook's error
state.  The result is which user-facing toast is shown: the Web3Auth branch
first recognises user rejection (returning the cancelled warning) and then
substitutes `signAndSendError.message` when present, before the shared
insufficient-funds check and the generic failure toast. -/
def handleAddLiquidityError (walletType : String) (errMessage : Option String)
    (signAndSendError : Option String) : ToastMessage :=
  match errMessage with
  | none => ToastMessage.errorUnexpected
  | some msg =>
    if walletType == "web3auth"
        && (strContains msg "User rejected" || strContains msg "user denied") then
      ToastMessage.warningCancelled
    else
      let errorMessage :=
        if walletType == "web3auth" then
          match signAndSendError with
          | some s => s
          | none => msg
        else msg
      if strContains errorMessage "insufficient funds"
          || strContains errorMessage "insufficient lamports" then
        ToastMessage.errorInsufficientFunds
      else ToastMessage.errorTransactionFailed errorMessage

/-- Counterexample for C8: the very same error — message `User rejected the
request`, no hook error — surfaces as the cancelled warning under the
Web3Auth backend but as the generic transaction-failure toast under the
traditional backend, so the message category does depend on the wallet
type. -/
theorem error_message_depends_on_wallet_type :
    handleAddLiquidityError "web3auth" (some "User rejected the request") none
        = ToastMessage.warningCancelled ∧
    handleAddLiquidityError "traditional" (some "User rejected the request") none
        = ToastMessage.errorTransactionFailed "User rejected the request" ∧
    ToastMessage.warningCancelled
        ≠ ToastMessage.errorTransactionFailed "User rejected the request" := by
  refine ⟨by decide, by decide, by decide⟩

/-- C8 as amended: the toast category is a pure function of the error
except for user-rejection recognition, which the handler applies only under
the Web3Auth backend (and, under Web3Auth, a pending `signAndSendError`
overrides the message): for any message without the rejection substrings
and with no override, both backends surface the same toast, and a thrown
value that is not an `Error` surfaces the same unexpected-error toast under
every backend. -/
theorem error_message_wallet_independent_otherwise (msg : String)
    (h1 : strContains msg "User rejected" = false)
    (h2 : strContains msg "user denied" = false) :
    (∀ signAndSendError : Option String,
      handleAddLiquidityError "traditional" (some msg) signAndSendError
        = handleAddLiquidityError "web3auth" (some msg) none) ∧
    (∀ (walletType : String) (signAndSendError : Option String),
      handleAddLiquidityError walletType none signAndSendError
        = ToastMessage.errorUnexpected) := by
  have hw1 : (("traditional" : String) == "web3auth") = false := by decide
  have hw2 : (("web3auth" : String) == "web3auth") = true := by decide
  constructor
  · intro s
    simp [handleAddLiquidityError, hw1, hw2, h1, h2]
  · intro w s
    rfl

/-- Witness for the amended C8 at a concrete message and hook state. -/
theorem error_message_wallet_independent_witness :
    handleAddLiquidityError "traditional" (some "boom") (some "hookError")
      = handleAddLiquidityError "web3auth" (some "boom") none :=
  (error_message_wallet_independent_otherwise "boom" (by decide) (by decide)).1
    (some "hookError")
